import Mathlib

/-!
Shallow embedding of the rename-planning core of `manga-rename-shell.py`
(the interactive manga directory rename tool), together with proofs that
settle the specification claims about it.

Conventions of the embedding:
* Python strings are Lean `String`s; character-level work happens on `.data`
  (`List Char`).  The regex class `\d` is modelled as the ASCII digits
  `Char.isDigit`, `[a-z]` as `Char.isLower`, and `str.strip()` as removal of
  leading/trailing whitespace characters (`isPySpace`).
* Machine integers are `Nat`/`Int`; all numbers handled by the tool are
  non-negative counters and page numbers.
* The in-memory session (`RenameShell`) is the record `ShellState`; each
  `do_*` command is a pure function from the old state (plus the raw argument
  line) to the new state and an optional reported error.
* The filesystem is a finite map from paths to node kinds (`Fs`); commit-time
  operations (`shutil.move`, `os.remove`/`shutil.rmtree`) return `Option Fs`,
  `none` standing for the raised exception.
-/

/-- Whitespace as stripped by Python's `str.strip()` (ASCII subset). -/
def isPySpace (c : Char) : Bool :=
  c == ' ' || c == '\t' || c == '\n' || c == '\r' || c == '\x0b' || c == '\x0c'

/-- Model of `str.strip()` on a character list: drop leading and trailing
whitespace. -/
def stripList (cs : List Char) : List Char :=
  ((cs.dropWhile isPySpace).reverse.dropWhile isPySpace).reverse

/-- Model of `str.strip()` on strings. -/
def pyStrip (s : String) : String := ⟨stripList s.data⟩

/-- Numeric value of one ASCII digit character (`int` on a digit). -/
def digitVal (c : Char) : Nat := c.toNat - 48

/-- Value of a digit string, as computed by Python's `int(...)` on the digits
captured by `\d+`. -/
def valOfDigits (cs : List Char) : Nat :=
  cs.foldl (fun a c => a * 10 + digitVal c) 0

/-- Decimal digit characters of `n`, most significant first, computed with
explicit fuel so that the kernel can evaluate it.  `decimalChars` below
instantiates the fuel; the bridge lemma `repr_eq_decimalChars` shows this
agrees with core's `Nat.repr` (the model of Python's `str(n)` / `%d`). -/
def decimalCharsAux : Nat → Nat → List Char
  | 0, _ => []
  | fuel + 1, n =>
    if n < 10 then [Nat.digitChar n]
    else decimalCharsAux fuel (n / 10) ++ [Nat.digitChar (n % 10)]

/-- Decimal digit characters of `n`, most significant first. -/
def decimalChars (n : Nat) : List Char := decimalCharsAux (n + 1) n

/-- Characters of `"%03d" % n`: the decimal form of `n` left-padded with `'0'`
to a minimum width of 3 (wider values are kept whole). -/
def padChars (n : Nat) : List Char :=
  let s := decimalChars n
  if s.length < 3 then List.replicate (3 - s.length) '0' ++ s else s

/-- `"%03d" % n` as a string. -/
def pad3 (n : Nat) : String := ⟨padChars n⟩

/-- Result of matching `NUMBER_REGEX = ((\d+)(?:-(\d+))?([a-z])?)` at the start
of a character list: the captured groups 2–4 and the unconsumed remainder. -/
structure NumMatch where
  valueDigits : List Char
  rangeDigits : Option (List Char)
  suffixLetter : Option Char
  rest : List Char
deriving DecidableEq

/-- Anchored match of `NUMBER_REGEX` (`re.match` semantics): one or more
digits, then optionally `-` and one or more digits, then optionally a single
lowercase letter.  Returns `none` when the text does not start with a digit. -/
def matchNumber (cs : List Char) : Option NumMatch :=
  let ds := cs.takeWhile Char.isDigit
  if ds = [] then none
  else
    let r1 := cs.dropWhile Char.isDigit
    let rk : Option (List Char) × List Char :=
      match r1 with
      | '-' :: r =>
        let ds2 := r.takeWhile Char.isDigit
        if ds2 = [] then (none, '-' :: r) else (some ds2, r.dropWhile Char.isDigit)
      | _ => (none, r1)
    match rk.2 with
    | c :: r3 =>
      if c.isLower then some ⟨ds, rk.1, some c, r3⟩ else some ⟨ds, rk.1, none, c :: r3⟩
    | [] => some ⟨ds, rk.1, none, []⟩

/-- Full text consumed by a `NumMatch` (capture group 1 of `NUMBER_REGEX`). -/
def matchedText (m : NumMatch) : List Char :=
  m.valueDigits ++
    (match m.rangeDigits with | some ds2 => '-' :: ds2 | none => []) ++
    (match m.suffixLetter with | some c => [c] | none => [])

/-- Embedding of `RenameShell._parseAndPad`: strip the text, match
`NUMBER_REGEX` at its start, and build the canonical zero-padded token
(`"%03d"` on the value, `"-%03d"` on the range end if present, the suffix
letter verbatim if present) together with the highest number seen. -/
def parseAndPad (text : String) : Option (String × Nat) :=
  match matchNumber (stripList text.data) with
  | none => none
  | some m =>
    let value := valOfDigits m.valueDigits
    let rh : List Char × Nat :=
      match m.rangeDigits with
      | some ds2 =>
        let r := valOfDigits ds2
        ('-' :: padChars r, if r > value then r else value)
      | none => ([], value)
    let suffixChars : List Char :=
      match m.suffixLetter with
      | some c => [c]
      | none => []
    some (⟨padChars value ++ rh.1 ++ suffixChars⟩, rh.2)


/-- One scanning step of `re.findall(NUMBER_REGEX, ...)`, with fuel (each step
consumes at least one character, so `length + 1` fuel suffices): skip
characters until a digit starts a match, emit the full matched token
(capture group 1), and continue after it. -/
def findallTokensAux : Nat → List Char → List String
  | 0, _ => []
  | _ + 1, [] => []
  | fuel + 1, c :: rest =>
    if c.isDigit then
      match matchNumber (c :: rest) with
      | some m => String.mk (matchedText m) :: findallTokensAux fuel m.rest
      | none => []
    else findallTokensAux fuel rest

/-- All non-overlapping matches of `NUMBER_REGEX` in a string, leftmost first,
each as its full matched text: the model of `re.findall(NUMBER_REGEX, s)`
followed by taking `[0]` (group 1) of each 4-group tuple. -/
def findallTokens (cs : List Char) : List String :=
  findallTokensAux (cs.length + 1) cs


/-- Model of `os.path.splitext` for plain dirent names (no path separators):
split off the suffix starting at the last `.`, except that dots leading the
name do not begin an extension. -/
def splitext (name : String) : String × String :=
  let cs := name.data
  let leading := cs.takeWhile (· == '.')
  let body := cs.dropWhile (· == '.')
  let revBody := body.reverse
  let afterDot := revBody.takeWhile (· != '.')
  if afterDot.length = revBody.length then (name, "")
  else
    (⟨leading ++ body.take (body.length - (afterDot.length + 1))⟩,
     ⟨'.' :: afterDot.reverse⟩)


/-- Directory classification (`TYPE_NONE` / `TYPE_SERIES` / `TYPE_CHAPTER`). -/
inductive DirType
  | none
  | series
  | chapter
deriving DecidableEq

/-- Per-entry pending action (`ACTION_RENAME` / `ACTION_IGNORE` /
`ACTION_DELETE`; named `EntryAction` because Mathlib already declares
`Action`). -/
inductive EntryAction
  | rename
  | ignore
  | delete
deriving DecidableEq

/-- Tail of `RenameShell._createRename` (its classification dispatch): given
the extension and the parsed `(number, highestNumber)` pair, produce the
proposed name and the number consumed.  A failed parse (`number is None`)
returns the original name and no number. -/
def renderEntry (dirType : DirType) (baseName original ext : String) :
    Option (String × Nat) → String × Option Nat
  | Option.none => (original, Option.none)
  | some (number, highestNumber) =>
    match dirType with
    | .none => (original, some highestNumber)
    | .series => (baseName ++ " c" ++ number ++ ext, some highestNumber)
    | .chapter => (baseName ++ " p" ++ number ++ ext, some highestNumber)

/-- Number-extraction stage of `RenameShell._createRename` with the default
`NUMBER_REGEX`: parse the last match's full token if the name matches anywhere,
otherwise parse the backup counter (`str(backupNumber)`). -/
def extractToken (original : String) (backupNumber : Nat) : Option (String × Nat) :=
  match (findallTokens original.data).getLast? with
  | some tok => parseAndPad tok
  | Option.none => parseAndPad (Nat.repr backupNumber)

/-- Embedding of `RenameShell._createRename` with the default `NUMBER_REGEX`
(the `reload` path): the source computes the backup parse eagerly and
overwrites it when `re.findall` produced matches, which is exactly
`extractToken`. -/
def createRename (dirType : DirType) (baseName original : String)
    (backupNumber : Nat) : String × Option Nat :=
  renderEntry dirType baseName original (splitext original).2
    (extractToken original backupNumber)

/-- Embedding of `RenameShell._createRename` when `numberRegex` is an
operator-supplied pattern with exactly ONE capture group, whose `re.findall`
semantics is the supplied `findall1` (the list of captured substrings, one per
match).  Python's `matches[-1][0]` then indexes INTO the captured string, so
only its first character is parsed (`cap.data.take 1`); on an empty capture the
source would raise `IndexError`, which is outside this model. -/
def createRenameOneGroup (findall1 : String → List String) (dirType : DirType)
    (baseName original : String) (backupNumber : Nat) : String × Option Nat :=
  let parsed :=
    match (findall1 original).getLast? with
    | some cap => parseAndPad (String.mk (cap.data.take 1))
    | Option.none => parseAndPad (Nat.repr backupNumber)
  renderEntry dirType baseName original (splitext original).2 parsed

/-- Embedding of `RenameShell._createRename` when `numberRegex` is an
operator-supplied pattern with TWO OR MORE capture groups, whose `re.findall`
semantics is the supplied `findallG` (per match, the list of group captures).
Python's `matches[-1][0]` is then the last match's first-group capture. -/
def createRenameMultiGroup (findallG : String → List (List String))
    (dirType : DirType) (baseName original : String) (backupNumber : Nat) :
    String × Option Nat :=
  let parsed :=
    match (findallG original).getLast? with
    | some caps => parseAndPad (caps.headD "")
    | Option.none => parseAndPad (Nat.repr backupNumber)
  renderEntry dirType baseName original (splitext original).2 parsed


/-- Lexicographic (code-point) strict comparison of character lists, the
order Python uses to compare `str` values. -/
def charListLt : List Char → List Char → Bool
  | [], [] => false
  | [], _ :: _ => true
  | _ :: _, [] => false
  | a :: as, b :: bs => if a < b then true else if b < a then false else charListLt as bs

/-- Python's `<=` on strings. -/
def pyStrLe (a b : String) : Bool := ! charListLt b.data a.data

/-- Insert into an already sorted list, keeping earlier elements first among
equals. -/
def insertSorted (x : String) : List String → List String
  | [] => [x]
  | y :: ys => if pyStrLe x y then x :: y :: ys else y :: insertSorted x ys

/-- Model of Python's `sorted(...)` on strings: a stable ascending sort by
code points (insertion sort, which the kernel can evaluate). -/
def pySorted (l : List String) : List String := l.foldr insertSorted []


/-- Session state of `RenameShell`: base path and name, current directory
classification, the rename plan (`renames`: original / proposed pairs) and the
parallel per-entry actions. -/
structure ShellState where
  basePath : String
  baseName : String
  dirType : DirType
  renames : List (String × String)
  actions : List EntryAction
deriving DecidableEq

/-- Loop of `RenameShell._reload` over the sorted dirents, threading
`nextNumber` (`max(nextNumber, highestNumber) + 1` after each entry), but
parameterised by the entry builder so the same loop serves the default and the
`bulk` patterns.  `none` models the `TypeError` Python raises at
`max(nextNumber, None)` when a bulk extraction parsed no number. -/
def reloadGo (create : String → Nat → String × Option Nat) :
    Nat → List String → Option (List (String × String))
  | _, [] => some []
  | nextNumber, d :: rest =>
    let r := create d nextNumber
    match r.2 with
    | Option.none => Option.none
    | some highestNumber =>
      (reloadGo create (max nextNumber highestNumber + 1) rest).map
        (fun l => (d, r.1) :: l)

/-- Embedding of `RenameShell._reload`'s plan construction: scan the dirents in
lexicographic order with `nextNumber` starting at 1. -/
def reloadEntries (create : String → Nat → String × Option Nat)
    (dirents : List String) : Option (List (String × String)) :=
  reloadGo create 1 (pySorted dirents)

/-- Embedding of `RenameShell._reload`'s effect on the session: replace
`renames` with the rebuilt plan and reset every action to `ACTION_RENAME`. -/
def reloadState (create : String → Nat → String × Option Nat)
    (st : ShellState) (dirents : List String) : Option ShellState :=
  (reloadEntries create dirents).map fun rs =>
    { st with renames := rs, actions := List.replicate rs.length EntryAction.rename }

/-- Embedding of `RenameShell.do_reload` / the `_reload()` calls that use the
default `NUMBER_REGEX`.  `dirents` is the directory listing
(`os.listdir(self.basePath)`). -/
def do_reload (st : ShellState) (dirents : List String) : Option ShellState :=
  reloadState (createRename st.dirType st.baseName) st dirents

/-- Errors reported by the shell commands (the source prints a message and
returns; each constructor cites the printed message). -/
inductive Err
  /-- `'ERROR: Found no pattern for bulk rename.'` -/
  | emptyPattern
  /-- `'ERROR: Expecting index.'` -/
  | expectingIndex
  /-- `'ERROR: Index (%d) out of range [0, %d).'` -/
  | indexOutOfRange (index : Int) (len : Nat)
deriving DecidableEq

/-- Embedding of `RenameShell.do_bulk` for a pattern with two or more capture
groups: a blank pattern is reported and leaves the session unchanged;
otherwise `_reload(numberRegex = arg)` runs with the operator pattern, whose
`re.findall` semantics is `findallG`.  The outer `none` models the uncaught
exception when some entry's extraction parsed no number. -/
def do_bulkMultiGroup (findallG : String → List (List String))
    (st : ShellState) (dirents : List String) (pattern : String) :
    Option (ShellState × Option Err) :=
  if pyStrip pattern = "" then some (st, some Err.emptyPattern)
  else
    (reloadState (createRenameMultiGroup findallG st.dirType st.baseName) st dirents).map
      (fun st2 => (st2, Option.none))

/-- Embedding of `RenameShell.do_bulk` for a pattern with exactly one capture
group (same structure; the difference sits in `createRenameOneGroup`). -/
def do_bulkOneGroup (findall1 : String → List String)
    (st : ShellState) (dirents : List String) (pattern : String) :
    Option (ShellState × Option Err) :=
  if pyStrip pattern = "" then some (st, some Err.emptyPattern)
  else
    (reloadState (createRenameOneGroup findall1 st.dirType st.baseName) st dirents).map
      (fun st2 => (st2, Option.none))

/-- Leading `-?\d+` of an already stripped argument (group 1 of
`^(-?\d+)\s*.*$`), with the remainder of the text.  Returns `none` when the
argument does not start with an optionally signed integer. -/
def parseLeadingInt (cs : List Char) : Option (Int × List Char) :=
  match cs with
  | '-' :: rest =>
    let ds := rest.takeWhile Char.isDigit
    if ds = [] then Option.none
    else some (-(valOfDigits ds : Int), rest.dropWhile Char.isDigit)
  | _ =>
    let ds := cs.takeWhile Char.isDigit
    if ds = [] then Option.none
    else some ((valOfDigits ds : Int), cs.dropWhile Char.isDigit)

/-- Embedding of `RenameShell._parseIndex`: strip the argument, read a leading
signed integer, check it against `[0, len(renames))`, and hand back the index
with the stripped remainder of the argument.  The source's final check
`self.renames[index] is None` (`'ERROR: Index %d is ignored.'`) is omitted:
no operation in the source ever stores `None` into `renames`, so that branch
is unreachable. -/
def parseIndex (renames : List (String × String)) (arg : String) :
    Except Err (Nat × String) :=
  match parseLeadingInt (stripList arg.data) with
  | Option.none => .error Err.expectingIndex
  | some (index, rest) =>
    if index < 0 ∨ (renames.length : Int) ≤ index then
      .error (Err.indexOutOfRange index renames.length)
    else
      .ok (index.toNat, ⟨stripList rest⟩)

/-- Replace the proposed name of entry `i` (`self.renames[index][1] = arg`);
the index has already been validated. -/
def setProposed (renames : List (String × String)) (i : Nat) (newName : String) :
    List (String × String) :=
  match renames.get? i with
  | some e => renames.set i (e.1, newName)
  | Option.none => renames

/-- Embedding of `RenameShell.do_edit`.  After a successful `_parseIndex` the
source tests `arg is None` (`'ERROR: No new name specified.'`), but
`_parseIndex` always returns a string (possibly empty), so that branch is
unreachable and an empty remainder falls through to the mutation. -/
def do_edit (st : ShellState) (arg : String) : ShellState × Option Err :=
  match parseIndex st.renames arg with
  | .error e => (st, some e)
  | .ok (index, rest) =>
    ({ st with
        actions := st.actions.set index EntryAction.rename,
        renames := setProposed st.renames index rest }, Option.none)

/-- Embedding of `RenameShell.do_ignore`: mark the entry ignored. -/
def do_ignore (st : ShellState) (arg : String) : ShellState × Option Err :=
  match parseIndex st.renames arg with
  | .error e => (st, some e)
  | .ok (index, _) =>
    ({ st with actions := st.actions.set index EntryAction.ignore }, Option.none)

/-- Embedding of `RenameShell.do_rm`: mark the entry for deletion (the path it
prints is a pure read). -/
def do_rm (st : ShellState) (arg : String) : ShellState × Option Err :=
  match parseIndex st.renames arg with
  | .error e => (st, some e)
  | .ok (index, _) =>
    ({ st with actions := st.actions.set index EntryAction.delete }, Option.none)

/-- Kind of a filesystem node.  Symbolic links behave exactly like regular
files in `_remove` (`os.remove` either way), so they are folded into `file`. -/
inductive FsType
  | file
  | dir
deriving DecidableEq

/-- Filesystem model: a finite map from absolute paths to node kinds,
represented as an association list. -/
abbrev Fs := List (String × FsType)

/-- Lookup of a path. -/
def fsLookup (fs : Fs) (p : String) : Option FsType :=
  match fs with
  | [] => Option.none
  | (q, t) :: rest => if q = p then some t else fsLookup rest p

/-- Remove a path from the map. -/
def fsErase (fs : Fs) (p : String) : Fs :=
  fs.filter (fun e => e.1 ≠ p)

/-- Model of `os.path.join(basePath, name)` for the plain relative names the
scanner produces. -/
def pathJoin (base name : String) : String := base ++ "/" ++ name

/-- Model of `shutil.move(src, dst)`: fails (raises) when `src` does not
exist; otherwise renames `src` to `dst`, replacing any file at `dst`.  (The
plan only performs same-directory renames; moving onto an existing directory
is outside the model.) -/
def shutilMove (fs : Fs) (src dst : String) : Option Fs :=
  match fsLookup fs src with
  | Option.none => Option.none
  | some t => some ((dst, t) :: fsErase (fsErase fs src) dst)

/-- Embedding of `RenameShell._remove`: unlink a file (or symlink), remove a
directory recursively, and raise `ValueError` (`none`) when the path is
neither. -/
def removePath (fs : Fs) (p : String) : Option Fs :=
  match fsLookup fs p with
  | some FsType.file => some (fsErase fs p)
  | some FsType.dir => some (fsErase fs p)
  | Option.none => Option.none

/-- One iteration of the `_commit` loop on a `(renames[i], actions[i])` pair:
a pending rename with a changed name moves the file, a delete removes it, and
everything else touches nothing.  `none` is a raised filesystem error. -/
def commitStep (basePath : String) (fs : Fs)
    (e : (String × String) × EntryAction) : Option Fs :=
  match e.2 with
  | EntryAction.rename =>
    if e.1.1 ≠ e.1.2 then shutilMove fs (pathJoin basePath e.1.1) (pathJoin basePath e.1.2)
    else some fs
  | EntryAction.delete => removePath fs (pathJoin basePath e.1.1)
  | EntryAction.ignore => some fs

/-- The `_commit` loop from entry index `i` on: apply each entry's operation
in plan order; when one raises, stop there and report its index (the
exception propagates out of `do_write`, so no later entry runs), returning
the filesystem as already mutated by the applied prefix. -/
def commitGo (basePath : String) : Nat → Fs → List ((String × String) × EntryAction) →
    Fs × Option Nat
  | _, fs, [] => (fs, Option.none)
  | i, fs, e :: rest =>
    match commitStep basePath fs e with
    | some fs2 => commitGo basePath (i + 1) fs2 rest
    | Option.none => (fs, some i)

/-- Embedding of `RenameShell._commit` (invoked by `do_write`): iterate the
plan in index order over the parallel `renames`/`actions` lists. -/
def commit (st : ShellState) (fs : Fs) : Fs × Option Nat :=
  commitGo st.basePath 0 fs (st.renames.zip st.actions)


/-! Spec-side definitions used to state the claims. -/

/-- Proposed name for an entry whose own name produced no number, under
counter value `k` (stated from the spec's naming templates, to be compared
with what `createRename` produces). -/
def fallbackName (dirType : DirType) (baseName d : String) (k : Nat) : String :=
  match dirType with
  | .none => d
  | .series => baseName ++ " c" ++ pad3 k ++ (splitext d).2
  | .chapter => baseName ++ " p" ++ pad3 k ++ (splitext d).2

/-- Plan over names that all produce no number: entry `i` (0-based) receives
counter `k + i`, i.e. consecutive canonical numbers with no gaps or repeats. -/
def fallbackPlan (dirType : DirType) (baseName : String) :
    Nat → List String → List (String × String)
  | _, [] => []
  | k, d :: rest => (d, fallbackName dirType baseName d k) ::
      fallbackPlan dirType baseName (k + 1) rest

/-- The claim's phrase "d left-padded to width 3" (stated from the spec's
words, to be compared with the canonical text the parser produces). -/
def specLeftPad3 (d : String) : String :=
  if d.length < 3 then ⟨List.replicate (3 - d.length) '0' ++ d.data⟩ else d

/-- Canonical text of a token as the data model describes it: the value
zero-padded to 3 digits, then `-` and the range end zero-padded to 3 digits
when present, then the suffix letter verbatim when present. -/
def canonicalText (v : Nat) (rangeEnd : Option Nat) (suffixLetter : Option Char) : String :=
  pad3 v ++ (match rangeEnd with | some r => "-" ++ pad3 r | Option.none => "") ++
    (match suffixLetter with | some c => String.mk [c] | Option.none => "")

/-- `re.findall` semantics of the concrete operator pattern `c(\d+)` (one
capture group): every non-overlapping occurrence of `c` followed by a maximal
digit run, capturing the digits. -/
def findallCNumAux : Nat → List Char → List String
  | 0, _ => []
  | _ + 1, [] => []
  | fuel + 1, c :: rest =>
    if c = 'c' then
      let ds := rest.takeWhile Char.isDigit
      if ds = [] then findallCNumAux fuel rest
      else String.mk ds :: findallCNumAux fuel (rest.dropWhile Char.isDigit)
    else findallCNumAux fuel rest

/-- `re.findall` of `c(\d+)` over a string. -/
def findallCNum (s : String) : List String :=
  findallCNumAux (s.data.length + 1) s.data

/-- Scanner for the concrete operator pattern `(\d)(\d)`: every
non-overlapping pair of adjacent digits, captured one digit per group. -/
def findallTwoDigitsGo : List Char → List (List String)
  | a :: b :: rest =>
    if a.isDigit && b.isDigit then [String.mk [a], String.mk [b]] :: findallTwoDigitsGo rest
    else findallTwoDigitsGo (b :: rest)
  | _ => []

/-- `re.findall` semantics of the concrete operator pattern `(\d)(\d)` (two
capture groups). -/
def findallTwoDigits (s : String) : List (List String) :=
  findallTwoDigitsGo s.data

/-! Sanity examples: concrete evaluations of the embedding. -/

-- sanity examples for the parser
example : parseAndPad "7-15b" = some ("007-015b", 15) := by decide
example : parseAndPad "0100" = some ("100", 100) := by decide
example : parseAndPad "7-" = some ("007", 7) := by decide
example : parseAndPad " 12a " = some ("012a", 12) := by decide
example : parseAndPad "x1" = none := by decide

example : findallTokens "c12.jpg".data = ["12"] := by decide
example : findallTokens "1999 x 7-15b".data = ["1999", "7-15b"] := by decide
example : findallTokens "abc".data = [] := by decide

example : splitext "a.jpg" = ("a", ".jpg") := by decide
example : splitext ".bashrc" = (".bashrc", "") := by decide
example : splitext "a.b.c" = ("a.b", ".c") := by decide
example : splitext "abc" = ("abc", "") := by decide

example : createRename DirType.chapter "X" "c12.jpg" 1 = ("X p012.jpg", some 12) := by decide
example : createRename DirType.none "X" "c12.jpg" 1 = ("c12.jpg", some 12) := by decide
example : createRename DirType.series "X" "plain.jpg" 4 = ("X c004.jpg", some 4) := by decide

example : pySorted ["b.jpg", "a.jpg", "c.jpg"] = ["a.jpg", "b.jpg", "c.jpg"] := by decide

example :
    commit ⟨"/d", "d", DirType.none, [("a", "b")], [EntryAction.rename]⟩
      [("/d/a", FsType.file)] = ([("/d/b", FsType.file)], Option.none) := by decide
example :
    commit ⟨"/d", "d", DirType.none, [("a", "a")], [EntryAction.rename]⟩
      [("/d/a", FsType.file)] = ([("/d/a", FsType.file)], Option.none) := by decide

/-! Supporting lemmas: decimal rendering and digit strings. -/

theorem digitChar_isDigit (d : Nat) (h : d < 10) : (Nat.digitChar d).isDigit = true := by
  interval_cases d <;> decide

theorem digitVal_digitChar (d : Nat) (h : d < 10) : digitVal (Nat.digitChar d) = d := by
  interval_cases d <;> decide

theorem digit_not_space (c : Char) (h : c.isDigit = true) : isPySpace c = false := by
  by_cases h1 : c = ' '
  · subst h1; exact absurd h (by decide)
  by_cases h2 : c = '\t'
  · subst h2; exact absurd h (by decide)
  by_cases h3 : c = '\n'
  · subst h3; exact absurd h (by decide)
  by_cases h4 : c = '\r'
  · subst h4; exact absurd h (by decide)
  by_cases h5 : c = '\x0b'
  · subst h5; exact absurd h (by decide)
  by_cases h6 : c = '\x0c'
  · subst h6; exact absurd h (by decide)
  simp [isPySpace, h1, h2, h3, h4, h5, h6]

theorem decimalCharsAux_irrel (f1 : Nat) : ∀ f2 n, n < f1 → n < f2 →
    decimalCharsAux f1 n = decimalCharsAux f2 n := by
  induction f1 with
  | zero => intro f2 n h1 _; omega
  | succ f ih =>
    intro f2 n h1 h2
    match f2, h2 with
    | f2 + 1, _ =>
      by_cases h10 : n < 10
      · simp [decimalCharsAux, h10]
      · have hd : n / 10 < n := Nat.div_lt_self (by omega) (by omega)
        simp only [decimalCharsAux, if_neg h10]
        rw [ih f2 (n / 10) (by omega) (by omega)]

theorem decimalChars_lt10 (n : Nat) (h : n < 10) : decimalChars n = [Nat.digitChar n] := by
  simp [decimalChars, decimalCharsAux, h]

theorem decimalChars_ge10 (n : Nat) (h : ¬ n < 10) :
    decimalChars n = decimalChars (n / 10) ++ [Nat.digitChar (n % 10)] := by
  have hd : n / 10 < n := Nat.div_lt_self (by omega) (by omega)
  show decimalCharsAux (n + 1) n = _
  rw [decimalCharsAux, if_neg h,
    decimalCharsAux_irrel n (n / 10 + 1) (n / 10) (by omega) (by omega)]
  rfl

theorem decimalChars_ne_nil (n : Nat) : decimalChars n ≠ [] := by
  by_cases h : n < 10
  · rw [decimalChars_lt10 n h]; simp
  · rw [decimalChars_ge10 n h]; simp

theorem decimalChars_all_digit (n : Nat) : ∀ c ∈ decimalChars n, c.isDigit = true := by
  induction n using Nat.strong_induction_on with
  | _ n ih =>
    by_cases h : n < 10
    · rw [decimalChars_lt10 n h]
      intro c hc
      rw [List.mem_singleton] at hc
      subst hc
      exact digitChar_isDigit n h
    · rw [decimalChars_ge10 n h]
      intro c hc
      rw [List.mem_append] at hc
      rcases hc with hc | hc
      · exact ih (n / 10) (Nat.div_lt_self (by omega) (by omega)) c hc
      · rw [List.mem_singleton] at hc
        subst hc
        exact digitChar_isDigit (n % 10) (Nat.mod_lt n (by omega))

theorem valOfDigits_append_singleton (cs : List Char) (c : Char) :
    valOfDigits (cs ++ [c]) = valOfDigits cs * 10 + digitVal c := by
  simp [valOfDigits, List.foldl_append]

theorem valOfDigits_decimalChars (n : Nat) : valOfDigits (decimalChars n) = n := by
  induction n using Nat.strong_induction_on with
  | _ n ih =>
    by_cases h : n < 10
    · rw [decimalChars_lt10 n h]
      show valOfDigits ([] ++ [Nat.digitChar n]) = n
      rw [valOfDigits_append_singleton, digitVal_digitChar n h]
      simp [valOfDigits]
    · rw [decimalChars_ge10 n h, valOfDigits_append_singleton,
        ih (n / 10) (Nat.div_lt_self (by omega) (by omega)),
        digitVal_digitChar (n % 10) (Nat.mod_lt n (by omega))]
      omega

theorem toDigitsCore_eq_decimalCharsAux :
    ∀ fuel n ds, n < fuel →
      Nat.toDigitsCore 10 fuel n ds = decimalCharsAux fuel n ++ ds := by
  intro fuel
  induction fuel with
  | zero => intro n ds h; omega
  | succ f ih =>
    intro n ds h
    by_cases h10 : n < 10
    · have hz : n / 10 = 0 := Nat.div_eq_of_lt h10
      have hm : n % 10 = n := Nat.mod_eq_of_lt h10
      simp [Nat.toDigitsCore, decimalCharsAux, hz, hm, h10]
    · have hz : ¬ n / 10 = 0 := by
        intro hz0
        exact h10 (by omega)
      have hd : n / 10 < n := Nat.div_lt_self (by omega) (by omega)
      simp only [Nat.toDigitsCore, if_neg hz, decimalCharsAux, if_neg h10]
      rw [ih (n / 10) (Nat.digitChar (n % 10) :: ds) (by omega)]
      simp

theorem repr_eq_decimalChars (n : Nat) : Nat.repr n = String.mk (decimalChars n) := by
  show (Nat.toDigits 10 n).asString = String.mk (decimalChars n)
  rw [Nat.toDigits, toDigitsCore_eq_decimalCharsAux (n + 1) n [] (by omega)]
  simp [List.asString, decimalChars]

/-! Supporting lemmas: takeWhile/dropWhile, stripping, digit-only strings. -/

theorem takeWhile_eq_self_of {p : Char → Bool} :
    ∀ {l : List Char}, (∀ c ∈ l, p c = true) → l.takeWhile p = l := by
  intro l
  induction l with
  | nil => intro _; rfl
  | cons c t ih =>
    intro h
    rw [List.takeWhile_cons, if_pos (h c (by simp)), ih (fun x hx => h x (by simp [hx]))]

theorem dropWhile_eq_nil_of {p : Char → Bool} :
    ∀ {l : List Char}, (∀ c ∈ l, p c = true) → l.dropWhile p = [] := by
  intro l
  induction l with
  | nil => intro _; rfl
  | cons c t ih =>
    intro h
    rw [List.dropWhile_cons, if_pos (h c (by simp)), ih (fun x hx => h x (by simp [hx]))]

theorem dropWhile_eq_self_of {p : Char → Bool} {l : List Char}
    (h : ∀ c ∈ l, p c = false) : l.dropWhile p = l := by
  cases l with
  | nil => rfl
  | cons c t => rw [List.dropWhile_cons, if_neg (by simp [h c (by simp)])]

theorem stripList_eq_self {l : List Char} (h : ∀ c ∈ l, isPySpace c = false) :
    stripList l = l := by
  unfold stripList
  rw [dropWhile_eq_self_of h,
    dropWhile_eq_self_of (fun c hc => h c (List.mem_reverse.mp hc)), List.reverse_reverse]

theorem matchNumber_digits (l : List Char) (hne : l ≠ [])
    (hd : ∀ c ∈ l, c.isDigit = true) :
    matchNumber l = some ⟨l, Option.none, Option.none, []⟩ := by
  unfold matchNumber
  rw [takeWhile_eq_self_of hd, dropWhile_eq_nil_of hd]
  simp [hne]

theorem parseAndPad_digits (l : List Char) (hne : l ≠ [])
    (hd : ∀ c ∈ l, c.isDigit = true) :
    parseAndPad ⟨l⟩ = some (pad3 (valOfDigits l), valOfDigits l) := by
  have hns : ∀ c ∈ l, isPySpace c = false := fun c hc => digit_not_space c (hd c hc)
  unfold parseAndPad
  rw [show String.data ⟨l⟩ = l from rfl, stripList_eq_self hns,
    matchNumber_digits l hne hd]
  simp [pad3]

theorem parseAndPad_repr (n : Nat) : parseAndPad (Nat.repr n) = some (pad3 n, n) := by
  rw [repr_eq_decimalChars,
    parseAndPad_digits (decimalChars n) (decimalChars_ne_nil n) (decimalChars_all_digit n),
    valOfDigits_decimalChars]

theorem mem_insertSorted (x a : String) :
    ∀ l : List String, (a ∈ insertSorted x l ↔ a = x ∨ a ∈ l) := by
  intro l
  induction l with
  | nil => simp [insertSorted]
  | cons y t ih =>
    by_cases h : pyStrLe x y = true
    · simp [insertSorted, h]
    · simp only [insertSorted, if_neg h, List.mem_cons, ih]
      tauto

theorem mem_pySorted (a : String) : ∀ l : List String, (a ∈ pySorted l ↔ a ∈ l) := by
  intro l
  induction l with
  | nil => simp [pySorted]
  | cons x t ih =>
    show a ∈ insertSorted x (pySorted t) ↔ _
    rw [mem_insertSorted, ih]
    simp

/-! Fallback plans: what `_reload` builds when no name yields a number. -/


theorem fallbackPlan_length (dirType : DirType) (baseName : String) :
    ∀ (l : List String) (k : Nat), (fallbackPlan dirType baseName k l).length = l.length := by
  intro l
  induction l with
  | nil => intro k; rfl
  | cons d t ih => intro k; simp [fallbackPlan, ih]

theorem createRename_no_match (dirType : DirType) (baseName d : String) (k : Nat)
    (h : findallTokens d.data = []) :
    createRename dirType baseName d k = (fallbackName dirType baseName d k, some k) := by
  unfold createRename extractToken
  rw [h]
  show renderEntry dirType baseName d (splitext d).2 (parseAndPad (Nat.repr k)) = _
  rw [parseAndPad_repr]
  cases dirType <;> rfl

theorem reloadGo_fallback (dirType : DirType) (baseName : String) :
    ∀ (l : List String) (k : Nat), (∀ d ∈ l, findallTokens d.data = []) →
      reloadGo (createRename dirType baseName) k l =
        some (fallbackPlan dirType baseName k l) := by
  intro l
  induction l with
  | nil => intro k _; rfl
  | cons d t ih =>
    intro k h
    have hd := h d (by simp)
    have ht : ∀ x ∈ t, findallTokens x.data = [] := fun x hx => h x (by simp [hx])
    simp only [reloadGo, createRename_no_match dirType baseName d k hd]
    rw [ih (max k k + 1) ht]
    simp [fallbackPlan, Nat.max_self]

/-- C1.  Building the plan iterates the directory scan in lexicographic order
with `nextCounter` starting at 1 and advancing to
`max(nextCounter, highestNumberConsumed) + 1` after each entry (the loop
`reloadGo`); hence over a directory whose names all fail number extraction the
entries receive the consecutive canonical numbers `001, 002, 003, ...` with no
gaps or repeats (`fallbackPlan` starting at 1), and every initial action is
`Rename`. -/
theorem claim_c1_counter_advancement (st : ShellState) (dirents : List String)
    (h : ∀ d ∈ dirents, findallTokens d.data = []) :
    do_reload st dirents =
      some { st with
        renames := fallbackPlan st.dirType st.baseName 1 (pySorted dirents),
        actions := List.replicate (pySorted dirents).length EntryAction.rename } := by
  have hs : ∀ d ∈ pySorted dirents, findallTokens d.data = [] :=
    fun d hd => h d ((mem_pySorted d dirents).mp hd)
  unfold do_reload reloadState reloadEntries
  rw [reloadGo_fallback st.dirType st.baseName (pySorted dirents) 1 hs]
  simp [fallbackPlan_length]

/-- Witness for C1, on the spec's own scenario: directory
`["b.jpg", "a.jpg", "c.jpg"]`, classification `Chapter`, base name `X`. -/
theorem claim_c1_counter_advancement_witness :
    do_reload ⟨"/lib/X", "X", DirType.chapter, [], []⟩ ["b.jpg", "a.jpg", "c.jpg"] =
      some ⟨"/lib/X", "X", DirType.chapter,
        [("a.jpg", "X p001.jpg"), ("b.jpg", "X p002.jpg"), ("c.jpg", "X p003.jpg")],
        [EntryAction.rename, EntryAction.rename, EntryAction.rename]⟩ :=
  (claim_c1_counter_advancement ⟨"/lib/X", "X", DirType.chapter, [], []⟩
    ["b.jpg", "a.jpg", "c.jpg"] (by decide)).trans (by decide)

/-- C2.  For every original name and every extracted token: classification
`None` keeps the original name while still returning the consumed number,
`Series` proposes `"{baseName} c{token}{ext}"`, and `Chapter` proposes
`"{baseName} p{token}{ext}"`, where `ext` is the original's extension suffix
(empty if none) — so the original extension is always preserved. -/
theorem claim_c2_classification_templates (baseName original : String)
    (backup : Nat) (tok : String) (hi : Nat)
    (h : extractToken original backup = some (tok, hi)) :
    createRename DirType.none baseName original backup = (original, some hi) ∧
    createRename DirType.series baseName original backup =
      (baseName ++ " c" ++ tok ++ (splitext original).2, some hi) ∧
    createRename DirType.chapter baseName original backup =
      (baseName ++ " p" ++ tok ++ (splitext original).2, some hi) := by
  unfold createRename
  rw [h]
  exact ⟨rfl, rfl, rfl⟩

/-- Witness for C2 at `original = "c12.jpg"`, whose token is `"012"`. -/
theorem claim_c2_classification_templates_witness :
    createRename DirType.series "X" "c12.jpg" 1 = ("X c012.jpg", some 12) ∧
    createRename DirType.chapter "X" "c12.jpg" 1 = ("X p012.jpg", some 12) :=
  ⟨((claim_c2_classification_templates "X" "c12.jpg" 1 "012" 12 (by decide)).2.1).trans
      (by decide),
   ((claim_c2_classification_templates "X" "c12.jpg" 1 "012" 12 (by decide)).2.2).trans
      (by decide)⟩

/-! Claim C3: canonical form of parsed number tokens. -/


theorem ite_gt_eq_max (v r : Nat) : (if r > v then r else v) = max v r := by
  by_cases h : r > v
  · rw [if_pos h, Nat.max_eq_right (Nat.le_of_lt h)]
  · rw [if_neg h, Nat.max_eq_left (Nat.le_of_not_lt h)]

/-- C3 counterexample: for the digit string `"0100"` the parser's canonical
text is `"100"` (the value re-rendered and padded), not `"0100"` (the original
digit string left-padded to width 3), so the claim's universal digit-string
clause fails as stated. -/
theorem claim_c3_canonical_counterexample :
    parseAndPad "0100" = some ("100", 100) ∧ specLeftPad3 "0100" = "0100" ∧
      ¬ parseAndPad "0100" = some (specLeftPad3 "0100", 100) := by decide

/-- C3 as amended.  (1) Every parsed token's canonical text is the value
zero-padded to 3 digits, followed by `-` and the range end zero-padded to
3 digits when present, followed by the suffix letter verbatim when present,
with `highestValue = max(value, rangeEnd or value)`.  (2) For every digit
string `d`, `parse(d)` succeeds with canonical text `int(d)` re-rendered in
decimal and zero-padded to width 3 (equal to `d` left-padded to width 3
whenever `d` carries no superfluous leading zeros) and `highestValue = int(d)`.
(3) `parse("7-15b")` yields `"007-015b"` with `highestValue = 15`. -/
theorem claim_c3_canonical_form :
    (∀ s t h, parseAndPad s = some (t, h) →
      ∃ v rangeEnd suffixLetter, t = canonicalText v rangeEnd suffixLetter ∧
        h = max v (rangeEnd.getD v)) ∧
    (∀ d : String, d.data ≠ [] → (∀ c ∈ d.data, c.isDigit = true) →
      parseAndPad d = some (pad3 (valOfDigits d.data), valOfDigits d.data)) ∧
    parseAndPad "7-15b" = some ("007-015b", 15) := by
  refine ⟨?_, ?_, by decide⟩
  · intro s t h hp
    unfold parseAndPad at hp
    cases hm : matchNumber (stripList s.data) with
    | none => rw [hm] at hp; cases hp
    | some m =>
      rw [hm] at hp
      obtain ⟨vd, rd, sl, mrest⟩ := m
      cases rd with
      | none =>
        cases sl with
        | none =>
          simp only [Option.some.injEq, Prod.mk.injEq] at hp
          obtain ⟨ht, hh⟩ := hp
          refine ⟨valOfDigits vd, Option.none, Option.none, ?_, ?_⟩
          · rw [← ht]; rfl
          · rw [← hh]; simp
        | some c =>
          simp only [Option.some.injEq, Prod.mk.injEq] at hp
          obtain ⟨ht, hh⟩ := hp
          refine ⟨valOfDigits vd, Option.none, some c, ?_, ?_⟩
          · rw [← ht]; rfl
          · rw [← hh]; simp
      | some ds2 =>
        cases sl with
        | none =>
          simp only [Option.some.injEq, Prod.mk.injEq] at hp
          obtain ⟨ht, hh⟩ := hp
          refine ⟨valOfDigits vd, some (valOfDigits ds2), Option.none, ?_, ?_⟩
          · rw [← ht]; rfl
          · rw [← hh]; simp [ite_gt_eq_max]
        | some c =>
          simp only [Option.some.injEq, Prod.mk.injEq] at hp
          obtain ⟨ht, hh⟩ := hp
          refine ⟨valOfDigits vd, some (valOfDigits ds2), some c, ?_, ?_⟩
          · rw [← ht]; rfl
          · rw [← hh]; simp [ite_gt_eq_max]
  · intro d hne hd
    exact parseAndPad_digits d.data hne hd

/-- Witness for the amended C3 at the digit string `"0041"`. -/
theorem claim_c3_canonical_form_witness :
    parseAndPad "0041" = some ("041", 41) :=
  (claim_c3_canonical_form.2.1 "0041" (by decide) (by decide)).trans (by decide)

/-! Claims C4/C5: operator-supplied bulk patterns. -/


/-- C4, evaluating the code at the failing input (bulk pattern `c(\d+)`,
filename `"c12.jpg"`, classification `Chapter`, base name `"X"`, counter 1):
`re.findall` does capture `"12"`, but `matches[-1][0]` indexes into that
string, so only `"1"` is parsed and the proposal is `"X p001.jpg"` instead of
the claimed `"X p012.jpg"`. -/
theorem claim_c4_last_match_truncated :
    findallCNum "c12.jpg" = ["12"] ∧
    createRenameOneGroup findallCNum DirType.chapter "X" "c12.jpg" 1 =
      ("X p001.jpg", some 1) ∧
    createRenameOneGroup findallCNum DirType.chapter "X" "c12.jpg" 1 ≠
      ("X p012.jpg", some 12) := by decide

/-- C5 counterexample: `bulk` with the two-capture-group pattern `(\d)(\d)`
is not rejected — no error is reported and the entries array is rebuilt (the
edited proposal `"custom.jpg"` and the `Ignore` action are discarded), so the
claim's "fails as InvalidPattern and the entries array is exactly as it was"
is false. -/
theorem claim_c5_invalid_pattern_counterexample :
    do_bulkMultiGroup findallTwoDigits
      ⟨"/d", "d", DirType.none, [("12.jpg", "custom.jpg")], [EntryAction.ignore]⟩
      ["12.jpg"] "(\\d)(\\d)" =
      some (⟨"/d", "d", DirType.none, [("12.jpg", "12.jpg")], [EntryAction.rename]⟩,
        Option.none) ∧
    (⟨"/d", "d", DirType.none, [("12.jpg", "12.jpg")], [EntryAction.rename]⟩ : ShellState) ≠
      ⟨"/d", "d", DirType.none, [("12.jpg", "custom.jpg")], [EntryAction.ignore]⟩ := by decide

/-- C5 as amended.  A blank bulk pattern is reported as an "empty pattern"
error with the session (entries, actions, classification, path) unchanged;
but a non-blank pattern is never validated for its capture-group count: the
plan is rebuilt from a fresh scan, each entry's token taken from the last
match's first capture group (`createRenameMultiGroup`), replacing entries and
actions. -/
theorem claim_c5_bulk_pattern_validation (findallG : String → List (List String))
    (st : ShellState) (dirents : List String) (pattern : String) :
    (pyStrip pattern = "" →
      do_bulkMultiGroup findallG st dirents pattern = some (st, some Err.emptyPattern)) ∧
    (pyStrip pattern ≠ "" →
      do_bulkMultiGroup findallG st dirents pattern =
        (reloadState (createRenameMultiGroup findallG st.dirType st.baseName) st dirents).map
          (fun st2 => (st2, Option.none))) := by
  constructor
  · intro hb
    unfold do_bulkMultiGroup
    rw [if_pos hb]
  · intro hb
    unfold do_bulkMultiGroup
    rw [if_neg hb]

/-- Witness for the amended C5: both the blank-pattern branch and the
two-group rebuild branch, at concrete inputs. -/
theorem claim_c5_bulk_pattern_validation_witness :
    do_bulkMultiGroup findallTwoDigits
      ⟨"/e", "e", DirType.chapter, [("34.jpg", "kept.jpg")], [EntryAction.delete]⟩
      ["34.jpg"] "  " =
      some (⟨"/e", "e", DirType.chapter, [("34.jpg", "kept.jpg")], [EntryAction.delete]⟩,
        some Err.emptyPattern) ∧
    do_bulkMultiGroup findallTwoDigits
      ⟨"/e", "e", DirType.chapter, [("34.jpg", "kept.jpg")], [EntryAction.delete]⟩
      ["34.jpg"] "(\\d)(\\d)" =
      some (⟨"/e", "e", DirType.chapter, [("34.jpg", "e p003.jpg")], [EntryAction.rename]⟩,
        Option.none) :=
  ⟨(claim_c5_bulk_pattern_validation findallTwoDigits
      ⟨"/e", "e", DirType.chapter, [("34.jpg", "kept.jpg")], [EntryAction.delete]⟩
      ["34.jpg"] "  ").1 (by decide),
   ((claim_c5_bulk_pattern_validation findallTwoDigits
      ⟨"/e", "e", DirType.chapter, [("34.jpg", "kept.jpg")], [EntryAction.delete]⟩
      ["34.jpg"] "(\\d)(\\d)").2 (by decide)).trans (by decide)⟩

/-! Claim C6: commit aborts at the first filesystem error. -/

/-- C6 counterexample, on the claim's own scenario: entry 0 is marked
`Delete` but `original` does not exist at commit time, entry 1 is a real
pending rename.  Commit stops at entry 0 with the error (`some 0`), the
filesystem is returned unchanged, and entry 1's rename is NOT applied
(`"/d/b"` never appears) — iteration does not continue to the remaining
entries. -/
theorem claim_c6_commit_continue_counterexample :
    commit ⟨"/d", "d", DirType.none, [("gone", "gone"), ("a", "b")],
        [EntryAction.delete, EntryAction.rename]⟩ [("/d/a", FsType.file)] =
      ([("/d/a", FsType.file)], some 0) ∧
    fsLookup [("/d/a", FsType.file)] "/d/b" = Option.none := by decide

/-- C6 as amended.  When the filesystem operation of one entry fails during
commit, the raised error propagates: every entry before it has been applied
and stays applied (the result is exactly the filesystem after the successful
prefix), the failure is reported at that entry's index, and no later entry is
processed (the result does not depend on `l2`). -/
theorem claim_c6_commit_abort (basePath : String)
    (l1 : List ((String × String) × EntryAction)) (e : (String × String) × EntryAction)
    (l2 : List ((String × String) × EntryAction)) (fs fs1 : Fs) (i : Nat)
    (hpre : commitGo basePath i fs l1 = (fs1, Option.none))
    (hfail : commitStep basePath fs1 e = Option.none) :
    commitGo basePath i fs (l1 ++ e :: l2) = (fs1, some (i + l1.length)) := by
  induction l1 generalizing fs i with
  | nil =>
    have hfs : fs = fs1 := congrArg Prod.fst hpre
    subst hfs
    show commitGo basePath i fs (e :: l2) = _
    simp only [commitGo, hfail]
    simp
  | cons a t ih =>
    rw [List.cons_append]
    simp only [commitGo] at hpre ⊢
    split at hpre
    next fs2 heq =>
      rw [ih fs2 (i + 1) hpre]
      have h3 : i + 1 + t.length = i + (a :: t).length := by
        simp only [List.length_cons]
        omega
      rw [h3]
    next heq =>
      exact absurd (congrArg Prod.snd hpre) (by simp)

/-- Witness for the amended C6: a one-entry successful prefix, a failing
delete, and a trailing rename that is never processed. -/
theorem claim_c6_commit_abort_witness :
    commitGo "/d" 0 [("/d/a", FsType.file), ("/d/x", FsType.file)]
      ([(("a", "b"), EntryAction.rename)] ++ (("gone", "gone"), EntryAction.delete) ::
        [(("x", "y"), EntryAction.rename)]) =
      ([("/d/b", FsType.file), ("/d/x", FsType.file)], some 1) :=
  (claim_c6_commit_abort "/d" [(("a", "b"), EntryAction.rename)]
    (("gone", "gone"), EntryAction.delete) [(("x", "y"), EntryAction.rename)]
    [("/d/a", FsType.file), ("/d/x", FsType.file)]
    [("/d/b", FsType.file), ("/d/x", FsType.file)] 0 (by decide) (by decide)).trans
    (by decide)

/-! Claims C7/C8: dead validation branches in `do_ignore`/`do_edit`. -/

/-- C7, evaluating the code at the failing input: after `ignore 0` succeeds,
`edit 0 new.jpg` at the same index is ACCEPTED — it reports no error, replaces
the proposed name, and even resets the action back to `Rename` — because
`do_ignore` records the ignore only in `actions` while `_parseIndex` checks
`renames[index] is None`, a condition nothing ever establishes. -/
theorem claim_c7_ignored_entry_still_mutable :
    do_ignore ⟨"/d", "d", DirType.chapter, [("a.jpg", "X p001.jpg")],
        [EntryAction.rename]⟩ "0" =
      (⟨"/d", "d", DirType.chapter, [("a.jpg", "X p001.jpg")],
        [EntryAction.ignore]⟩, Option.none) ∧
    do_edit ⟨"/d", "d", DirType.chapter, [("a.jpg", "X p001.jpg")],
        [EntryAction.ignore]⟩ "0 new.jpg" =
      (⟨"/d", "d", DirType.chapter, [("a.jpg", "new.jpg")],
        [EntryAction.rename]⟩, Option.none) := by decide

/-- C8, evaluating the code at the failing input: `edit 0` with no new name
reports no error and sets the proposed name to the empty string, because the
source checks `arg is None` while `_parseIndex` always returns a (possibly
empty) string. -/
theorem claim_c8_empty_new_name_accepted :
    do_edit ⟨"/d", "d", DirType.chapter, [("a.jpg", "X p001.jpg")],
        [EntryAction.rename]⟩ "0" =
      (⟨"/d", "d", DirType.chapter, [("a.jpg", "")],
        [EntryAction.rename]⟩, Option.none) := by decide

/-! Claims C9/C10: index validation and the frame of ignore/delete marks. -/

/-- C9.  For every session and every argument whose leading integer is
negative or at least `len(entries)`, each of `edit`, `ignore` and `rm`
reports the out-of-range index error and returns the state exactly as it
was. -/
theorem claim_c9_out_of_range_rejected (st : ShellState) (arg : String) (i : Int)
    (rest : List Char) (hp : parseLeadingInt (stripList arg.data) = some (i, rest))
    (hout : i < 0 ∨ (st.renames.length : Int) ≤ i) :
    do_edit st arg = (st, some (Err.indexOutOfRange i st.renames.length)) ∧
    do_ignore st arg = (st, some (Err.indexOutOfRange i st.renames.length)) ∧
    do_rm st arg = (st, some (Err.indexOutOfRange i st.renames.length)) := by
  have hpi : parseIndex st.renames arg =
      .error (Err.indexOutOfRange i st.renames.length) := by
    unfold parseIndex
    rw [hp]
    show (if i < 0 ∨ (st.renames.length : Int) ≤ i then
        Except.error (Err.indexOutOfRange i st.renames.length)
      else Except.ok (i.toNat, (⟨stripList rest⟩ : String))) = _
    rw [if_pos hout]
  refine ⟨?_, ?_, ?_⟩
  · unfold do_edit
    rw [hpi]
  · unfold do_ignore
    rw [hpi]
  · unfold do_rm
    rw [hpi]

/-- Witness for C9: index 5 against a one-entry session. -/
theorem claim_c9_out_of_range_rejected_witness :
    do_edit ⟨"/d", "d", DirType.none, [("a", "a")], [EntryAction.rename]⟩ "5 x" =
      (⟨"/d", "d", DirType.none, [("a", "a")], [EntryAction.rename]⟩,
        some (Err.indexOutOfRange 5 1)) :=
  ((claim_c9_out_of_range_rejected
      ⟨"/d", "d", DirType.none, [("a", "a")], [EntryAction.rename]⟩
      "5 x" 5 [' ', 'x'] (by decide) (by decide)).1).trans (by decide)

/-- C10.  A successful `ignore i` or `rm i` changes only `actions[i]` (to
`Ignore` resp. `Delete`): the renames (original and proposed names of every
entry), the classification, the base path and base name are untouched, every
other entry's action is preserved, and no error is reported.  The operations
produce no filesystem effect — only `commit` does. -/
theorem claim_c10_mark_frame (st : ShellState) (arg : String) (i : Nat) (rest : String)
    (hp : parseIndex st.renames arg = .ok (i, rest)) :
    do_ignore st arg =
      ({ st with actions := st.actions.set i EntryAction.ignore }, Option.none) ∧
    do_rm st arg =
      ({ st with actions := st.actions.set i EntryAction.delete }, Option.none) ∧
    (∀ j, j ≠ i → (st.actions.set i EntryAction.ignore)[j]? = st.actions[j]?) ∧
    (∀ j, j ≠ i → (st.actions.set i EntryAction.delete)[j]? = st.actions[j]?) := by
  refine ⟨?_, ?_, ?_, ?_⟩
  · unfold do_ignore
    rw [hp]
  · unfold do_rm
    rw [hp]
  · intro j hj
    exact List.getElem?_set_ne (Ne.symm hj)
  · intro j hj
    exact List.getElem?_set_ne (Ne.symm hj)

/-- Witness for C10: ignore entry 1 of a two-entry session. -/
theorem claim_c10_mark_frame_witness :
    do_ignore ⟨"/d", "d", DirType.series, [("a", "b"), ("c", "d")],
        [EntryAction.rename, EntryAction.rename]⟩ "1" =
      (⟨"/d", "d", DirType.series, [("a", "b"), ("c", "d")],
        [EntryAction.rename, EntryAction.ignore]⟩, Option.none) :=
  ((claim_c10_mark_frame
      ⟨"/d", "d", DirType.series, [("a", "b"), ("c", "d")],
        [EntryAction.rename, EntryAction.rename]⟩
      "1" 1 "" (by rfl)).1).trans (by decide)
